import Mathlib

/-!
Verification of the workflow-orchestration core of the `ai-agents` repository.

The Lean definitions below are shallow embeddings of the Python source:

* `src/agent/checkpoint.py`  — `JSONCheckpointStore` (`load_all`, `rollback`, `time_travel`);
* `src/agent/state.py`       — the single-agent `_merge_dict` reducer (dict union);
* `src/agent/multi/state.py` — the `MultiAgentState` schema and its declared reducers;
* `src/agent/multi/nodes/governance.py` — `_moderate`, `_rate_limit`, `_hitl_approval`,
  `governance_node`;
* `src/agent/multi/nodes/audit.py`      — `_post_validate`, `audit_node`;
* `src/agent/multi/nodes/executor.py`   — `executor_node`;
* `src/agent/multi/nodes/researcher.py` — `researcher_node`;
* `src/agent/nodes/parallel.py`         — `branch_summary`, `branch_citations`;
* `src/agent/multi/graph_multi.py`      — `_validate_input`;
* `src/tool_server.py`                  — the `/shell` endpoint `shell_cmd`.

External collaborators that a node merely calls (the Ollama chat model, the HTTP RAG
backend, the sha256 digest, the PII-redaction regex substitution) are passed to the
embedded node functions as explicit function parameters: the node's control flow and
state handling — the subject of the claims — are translated from the source line by line,
while the collaborator's output is an arbitrary value the theorems quantify over or
instantiate concretely.

Python dicts are modelled as insertion-ordered association lists (`List (String × V)`)
with `dict.update` semantics (`pySet`, `pyDictUpdate`); Python dict equality (`==`) is
key-wise lookup equality, which the theorems state via `pyLookup`.
-/

/-! ## Python dict primitives (insertion-ordered association lists) -/

/-- Assignment `d[k] = v` on a Python dict: replaces the value at the first occurrence
of `k` keeping its position, or appends `(k, v)` at the end when `k` is absent. -/
def pySet {V : Type} (d : List (String × V)) (k : String) (v : V) : List (String × V) :=
  match d with
  | [] => [(k, v)]
  | (k1, v1) :: rest => if k1 = k then (k1, v) :: rest else (k1, v1) :: pySet rest k v

/-- `d.update(e)` on Python dicts: fold the entries of `e` into `d` left to right. -/
def pyDictUpdate {V : Type} (d : List (String × V)) : List (String × V) → List (String × V)
  | [] => d
  | (k, v) :: rest => pyDictUpdate (pySet d k v) rest

/-- `d.get(k)` on a Python dict. -/
def pyLookup {V : Type} (d : List (String × V)) (k : String) : Option V :=
  match d with
  | [] => none
  | (k1, v1) :: rest => if k1 = k then some v1 else pyLookup rest k

theorem pyLookup_pySet {V : Type} (d : List (String × V)) (k k' : String) (v : V) :
    pyLookup (pySet d k v) k' = if k = k' then some v else pyLookup d k' := by
  induction d with
  | nil => simp [pySet, pyLookup, eq_comm]
  | cons hd tl ih =>
    obtain ⟨k1, v1⟩ := hd
    by_cases h1 : k1 = k
    · subst h1
      simp only [pySet, if_pos rfl]
      by_cases h2 : k1 = k' <;> simp [pyLookup, h2]
    · simp only [pySet, if_neg h1]
      by_cases h2 : k1 = k'
      · subst h2
        have hk : ¬k = k1 := fun h => h1 h.symm
        simp [pyLookup, hk]
      · simp [pyLookup, h2, ih]

theorem pyLookup_eq_none_of_not_mem {V : Type} (d : List (String × V)) (k : String)
    (h : k ∉ d.map Prod.fst) : pyLookup d k = none := by
  induction d with
  | nil => rfl
  | cons hd tl ih =>
    obtain ⟨k1, v1⟩ := hd
    simp only [List.map_cons, List.mem_cons] at h
    push_neg at h
    simp [pyLookup, Ne.symm h.1, ih h.2]

theorem pyLookup_pyDictUpdate {V : Type} (e d : List (String × V)) (k : String)
    (he : (e.map Prod.fst).Nodup) :
    pyLookup (pyDictUpdate d e) k =
      match pyLookup e k with
      | some v => some v
      | none => pyLookup d k := by
  induction e generalizing d with
  | nil => simp [pyDictUpdate, pyLookup]
  | cons hd tl ih =>
    obtain ⟨k1, v1⟩ := hd
    simp only [List.map_cons, List.nodup_cons] at he
    by_cases hk : k1 = k
    · subst hk
      have hnone : pyLookup tl k1 = none := pyLookup_eq_none_of_not_mem tl k1 he.1
      simp [pyDictUpdate, pyLookup, ih _ he.2, hnone, pyLookup_pySet]
    · simp only [pyDictUpdate, pyLookup, hk, if_neg hk, ih _ he.2]
      cases h : pyLookup tl k with
      | some v => simp
      | none => simp [pyLookup_pySet, hk]

/-! ## Checkpoint store (`src/agent/checkpoint.py`, class `JSONCheckpointStore`) -/

/-- One line of `history.jsonl`: `{"id": ..., "ts": ..., "node": ..., "state": ...}`.
Timestamps are epoch seconds (modelled as `Nat`); the state snapshot is opaque to the
store, so it is a type parameter. -/
structure Record (σ : Type) where
  id : String
  ts : Nat
  node : String
  state : σ
deriving DecidableEq, Repr

/-- `load_all`: parse every line of the store file in append order. The store's
persistent content is modelled as the list of its records, so reading it back is the
list itself. -/
def load_all {σ : Type} (records : List (Record σ)) : List (Record σ) := records

/-- `rollback(checkpoint_id)`: scan from the oldest record accumulating `keep`; when the
id is found, rewrite the file to the accumulated prefix (ending at that record) and
return its state; when the scan ends without finding the id, return `None` and leave the
file untouched. The result pairs the returned value with the store content after the
call. -/
def rollback {σ : Type} : List (Record σ) → String → Option σ × List (Record σ)
  | [], _ => (none, [])
  | r :: rs, cid =>
    if r.id = cid then (some r.state, [r])
    else
      match rollback rs cid with
      | (none, _) => (none, r :: rs)
      | (some s, keep) => (some s, r :: keep)

/-- `time_travel(index)`: return `None` on an empty store; otherwise clamp the index to
`[0, len - 1]` (`index = max(0, min(index, len(records)-1))`) and read that record's
state without modifying the store. -/
def time_travel {σ : Type} (records : List (Record σ)) (index : Int) : Option σ :=
  match records with
  | [] => none
  | _ :: _ =>
    ((records.get? (max 0 (min index ((records.length : Int) - 1))).toNat).map Record.state)

/-! ## Multi-agent state (`src/agent/multi/state.py`, `TypedDict MultiAgentState`) -/

/-- Values stored under the `meta` key by the node deltas modelled here. -/
inductive MetaVal where
  | str (s : String)
  | nat (n : Nat)
deriving DecidableEq, Repr

/-- Result dict of `_post_validate` in `src/agent/multi/nodes/audit.py`:
`{"issues": [...], "valid": not issues}`. -/
structure AuditVal where
  issues : List String
  valid : Bool
deriving DecidableEq, Repr

/-- The fields of `MultiAgentState` touched by the modelled nodes, each optional
(`TypedDict(total=False)`: a key may be absent, `none` here). `retrieved_docs` holds the
`raw` text of each retrieved snippet. -/
structure MState where
  user_input : Option String := none
  original_user_input : Option String := none
  route : Option String := none
  answer : Option String := none
  reviewed_answer : Option String := none
  executor_answer : Option String := none
  draft_answer : Option String := none
  plan : Option String := none
  planned_tools : Option (List String) := none
  tasks : Option (List String) := none
  retrieved_docs : Option (List String) := none
  redacted : Option Bool := none
  hitl_approved : Option Bool := none
  dry_run : Option Bool := none
  halt : Option String := none
  audit : Option AuditVal := none
  rolled_back : Option Bool := none
  content_hash : Option String := none
  meta : Option (List (String × MetaVal)) := none
deriving DecidableEq, Repr

/-- Python truthiness of an optional string field: `None` and `""` are falsy. -/
def truthyStr : Option String → Bool
  | none => false
  | some s => s != ""

/-- Python `needle in hay` on strings (substring containment), over character lists. -/
def hasSub (needle : List Char) : List Char → Bool
  | [] => needle.isEmpty
  | c :: rest => needle.isPrefixOf (c :: rest) || hasSub needle rest

/-- Python `str.strip()`: drop leading and trailing whitespace. -/
def pyStripChars (cs : List Char) : List Char :=
  ((cs.dropWhile Char.isWhitespace).reverse.dropWhile Char.isWhitespace).reverse

/-- Python repr of a list of strings, as interpolated by f-strings in the source
(`['a', 'b']`). -/
def pyReprStrList (xs : List String) : String :=
  "[" ++ String.intercalate ", " (xs.map (fun s => "\x27" ++ s ++ "\x27")) ++ "]"

/-! ## Governance gate (`src/agent/multi/nodes/governance.py`) -/

/-- Configuration read from environment variables at module load, plus the content of
the HITL approval file (`none` when the file does not exist). Defaults mirror the
source's `os.getenv` defaults. -/
structure GovEnv where
  requireModeration : Bool := true
  dryRun : Bool := false
  enableHitl : Bool := true
  rateLimitPerMin : Nat := 30
  allowedTools : List String := ["search", "code_exec", "fetch"]
  hitlFileContent : Option String := none

/-- `_moderate(text)`: flagged iff one of the stub policy terms occurs in
`text.lower()`; `governance_node` only reads the `flagged` entry of the returned dict,
so the model returns that Bool. -/
def moderate (text : String) : Bool :=
  (["terror", "self-harm", "bomb"] : List String).any
    (fun k => hasSub k.data (text.data.map Char.toLower))

/-- `_rate_limit()`: pop timestamps older than 60 seconds from the front of the sliding
window, reject when the retained count has reached the ceiling, otherwise record `now`.
The global deque is threaded explicitly: the result pairs `(ok, RATE_LIMIT_PER_MIN)`
with the window after the call. -/
def rateLimit (limit : Nat) (window : List Nat) (now : Nat) :
    (Bool × Nat) × List Nat :=
  let retained := window.dropWhile (fun t => decide (60 < now - t))
  if limit ≤ retained.length then ((false, limit), retained)
  else ((true, limit), retained ++ [now])

/-- `_hitl_approval(state)`: when the approval file exists, approve iff its stripped,
lower-cased content is one of `y/yes/approve/approved`; when the file does not exist the
function returns `True` (despite the source comment announcing a default deny). -/
def hitl_approval (fileContent : Option String) : Bool :=
  match fileContent with
  | some content =>
    (["y", "yes", "approve", "approved"] : List String).contains
      (String.mk ((pyStripChars content.data).map Char.toLower))
  | none => true

/-- `governance_node(state)`: moderation, PII redaction, rate limiting, tool
allow-listing, dry-run and HITL gates, in source order. The Python function assigns into
its argument dict (`state["k"] = v`) and returns that same dict, so the `MState` in the
result is simultaneously the return value and the post-call content of the caller's
dict. `redact` is the `_redact` regex substitution collaborator; the rate-limit window
and the current time are explicit. -/
def governance_node (env : GovEnv) (redact : String → String) (window : List Nat)
    (now : Nat) (state : MState) : MState × List Nat :=
  let user_input := state.user_input.getD ""
  let s1 := { state with original_user_input := some user_input }
  let flagged := if env.requireModeration then moderate user_input else false
  if flagged then
    ({ s1 with reviewed_answer := some "Request blocked by moderation.",
               halt := some "moderation_block" }, window)
  else
    let red := redact user_input
    let s2 := if red ≠ user_input then { s1 with redacted := some true } else s1
    let s3 := { s2 with user_input := some red }
    let rl := rateLimit env.rateLimitPerMin window now
    if !rl.1.1 then
      ({ s3 with
          reviewed_answer :=
            some ("Rate limit exceeded (" ++ toString rl.1.2 ++ "/min). Retry later."),
          halt := some "rate_limited" }, rl.2)
    else
      let planned := s3.planned_tools.getD []
      let disallowed := planned.filter (fun t => !(env.allowedTools.contains t))
      if !disallowed.isEmpty then
        ({ s3 with reviewed_answer := some ("Disallowed tools: " ++ pyReprStrList disallowed),
                   halt := some "tool_block" }, rl.2)
      else if env.dryRun then
        ({ s3 with dry_run := some true,
                   reviewed_answer := some ("Dry-run OK. Planned tools: " ++ pyReprStrList planned),
                   halt := some "dry_run_complete" }, rl.2)
      else if env.enableHitl then
        if !hitl_approval env.hitlFileContent then
          ({ s3 with reviewed_answer := some "Awaiting human approval.",
                     halt := some "hitl_pending" }, rl.2)
        else ({ s3 with hitl_approved := some true }, rl.2)
      else (s3, rl.2)

/-! ## Audit node (`src/agent/multi/nodes/audit.py`) -/

/-- Python `a or b` on a possibly-absent string: `None` and `""` fall through. -/
def orFalsy (a : Option String) (b : String) : String :=
  match a with
  | some s => if s = "" then b else s
  | none => b

/-- `_post_validate(state)`: flag answers longer than 8000 characters and answers
containing a raw ```` ```exec ```` block. -/
def post_validate (state : MState) : AuditVal :=
  let answer := orFalsy state.answer (orFalsy state.executor_answer "")
  let issues :=
    (if 8000 < answer.length then ["answer_too_long"] else []) ++
    (if hasSub ("\x60\x60\x60exec").data answer.data then ["unescaped_code_block"] else [])
  { issues := issues, valid := issues.isEmpty }

/-- `audit_node(state)`: pass the state through when `halt` or `dry_run` is set;
otherwise store the validation verdict, and either hold the response for review (halt
`post_validation_fail`) or record a provenance hash. `contentHash` is the
`sha256(json.dumps({"a": answer}))` collaborator. As with `governance_node`, the Python
function mutates and returns its argument dict, so the result is the post-call dict. -/
def audit_node (contentHash : Option String → String) (state : MState) : MState :=
  if truthyStr state.halt then state
  else if state.dry_run.getD false then state
  else
    let validation := post_validate state
    let s1 := { state with audit := some validation }
    if !validation.valid then
      { s1 with rolled_back := some true,
                reviewed_answer :=
                  some ("Response held for review. Issues: " ++ pyReprStrList validation.issues),
                halt := some "post_validation_fail" }
    else { s1 with content_hash := some (contentHash state.answer) }

/-! ## Researcher and executor nodes (`src/agent/multi/nodes/{researcher,executor}.py`) -/

/-- `researcher_node(state)`: return an empty delta when the route is not `rag`;
otherwise POST the query to the RAG search backend and collect the non-blank lines of
the response as retrieved snippets. `ragSearch` is the HTTP collaborator; the `Nat` in
the result counts the HTTP requests performed by the call, and a `none` delta models the
`KeyError` raised when `state["user_input"]` is absent. -/
def researcher_node (ragSearch : String → String) (state : MState) :
    Option MState × Nat :=
  if state.route ≠ some "rag" then (some {}, 0)
  else
    match state.user_input with
    | none => (none, 0)
    | some q =>
      let txt := ragSearch q
      let docs := (txt.splitOn "\n").filter (fun l => !(l.trim == ""))
      (some { retrieved_docs := some docs,
              meta := some [("research_hits", MetaVal.nat docs.length)] }, 1)

/-- `executor_node(state)`: build the prompt (RAG variant when the route is `rag`,
direct variant otherwise) and invoke the chat model unconditionally — there is no check
of the `halt` field. `llm` is the Ollama collaborator; the `Nat` counts model
invocations, and a `none` delta models the `KeyError` when `state["user_input"]` is
absent. -/
def executor_node (llm : String → String) (state : MState) : Option MState × Nat :=
  match state.user_input with
  | none => (none, 0)
  | some q =>
    let prompt :=
      if state.route = some "rag" then
        "Snippets:\n" ++ String.intercalate "\n" ((state.retrieved_docs.getD []).take 8) ++
          "\n\nQuestion: " ++ q ++ "\nDraft:"
      else
        "Provide a concise, structured answer:\nQuestion: " ++ q ++ "\nDraft:"
    (some { draft_answer := some (llm prompt),
            meta := some [("executor_model", MetaVal.str "llama3.2:1b")] }, 1)

/-! ## Schema and merge (`src/agent/multi/state.py` declarations; merge per spec 4.1) -/

/-- Every field declared in `MultiAgentState` (`src/agent/multi/state.py`, lines 20-71). -/
def multiAgentStateFields : List String :=
  ["user_input", "original_user_input", "route", "answer", "reviewed_answer",
   "executor_answer", "draft_answer",
   "plan", "planned_tools", "tool_results", "used_tools", "tool_errors",
   "retrieved_docs", "memory_query", "memory_docs", "memory_used",
   "retrieval_cache_hit", "retrieval_latency_s",
   "redacted", "moderation", "hitl_approved", "dry_run", "halt",
   "audit", "rolled_back", "content_hash",
   "error", "retry_count", "max_retries",
   "meta", "metadata",
   "trace", "timings", "artifacts", "decisions", "metrics"]

/-- Fields annotated with the `operator.add` (append) reducer in `MultiAgentState`. -/
def appendAnnotatedFields : List String :=
  ["tool_results", "used_tools", "tool_errors", "trace"]

/-- Fields annotated with the `_merge_dict` (shallow-merge) reducer in `MultiAgentState`. -/
def shallowAnnotatedFields : List String :=
  ["timings", "artifacts", "decisions", "metrics"]

/-- Keys of the dict returned by `planner_node` (`src/agent/multi/nodes/planner.py`,
lines 34-39). -/
def plannerReturnKeys : List String := ["plan", "tasks", "route", "meta"]

/-- Keys of the dict returned by `reviewer_node` (`src/agent/multi/nodes/reviewer.py`,
lines 33-37). -/
def reviewerReturnKeys : List String := ["reviewed_answer", "critique", "meta"]

/-- A JSON-like Python value, for stating merge behaviour generically. -/
inductive PyVal where
  | str (s : String)
  | int (n : Int)
  | bool (b : Bool)
  | list (xs : List PyVal)
  | dict (kvs : List (String × PyVal))
  | null

/-- Merge failures: `SchemaError` for a field absent from the schema, a type error when
a declared reducer meets operands of the wrong shape. -/
inductive MergeError where
  | schemaError (field : String)
  | typeError (field : String)
deriving DecidableEq

/-- Modelled from the spec: spec 4.1 specifies `merge(base, delta)` — apply each delta
field's declared policy (`append` concatenates sequences, `shallow-merge` unions
mappings, otherwise overwrite; an absent base field is the policy's identity) and fail
with `SchemaError` on a field not declared in the schema. The repository delegates this
merge to the LangGraph channel machinery (not part of the source tree); the per-field
policies themselves are the reducer annotations declared in `src/agent/multi/state.py`. -/
def applyPolicy (field : String) (old : Option PyVal) (new : PyVal) :
    Except MergeError PyVal :=
  if field ∈ appendAnnotatedFields then
    match old, new with
    | none, PyVal.list ys => Except.ok (PyVal.list ys)
    | some (PyVal.list xs), PyVal.list ys => Except.ok (PyVal.list (xs ++ ys))
    | _, _ => Except.error (MergeError.typeError field)
  else if field ∈ shallowAnnotatedFields then
    match old, new with
    | none, PyVal.dict e => Except.ok (PyVal.dict e)
    | some (PyVal.dict d), PyVal.dict e => Except.ok (PyVal.dict (pyDictUpdate d e))
    | _, _ => Except.error (MergeError.typeError field)
  else Except.ok new

/-- Modelled from the spec: `merge(base, delta)` of spec 4.1 over the
`MultiAgentState` schema — each delta field is checked against the declared schema
(`SchemaError` on an unknown field, never a silent drop) and folded into the base via
its policy. -/
def specMerge (base delta : List (String × PyVal)) :
    Except MergeError (List (String × PyVal)) :=
  delta.foldlM
    (fun acc kv =>
      if kv.1 ∈ multiAgentStateFields then
        (applyPolicy kv.1 (pyLookup acc kv.1) kv.2).map (fun v => pySet acc kv.1 v)
      else Except.error (MergeError.schemaError kv.1))
    base

/-! ## Single-agent reducer and parallel branches (`src/agent/state.py`,
`src/agent/nodes/parallel.py`) -/

/-- `_merge_dict(prev, new)` from `src/agent/state.py` lines 38-42: start from an empty
dict, `update` with `prev` then with `new` (later keys overwrite earlier ones). A falsy
(`None`/empty) operand contributes nothing, which is exactly `update` with the empty
list. -/
def mergeDict {V : Type} (prev new : List (String × V)) : List (String × V) :=
  pyDictUpdate (pyDictUpdate [] prev) new

/-- The single-agent `GraphState` fields used by the parallel branch nodes. -/
structure GState where
  retrieved_docs : List String := []
  parallel_parts : List (String × String) := []
  answer : Option String := none
deriving DecidableEq, Repr

/-- `branch_summary(state)`: summarize the first 8 retrieved snippets; the node's delta
is `{"parallel_parts": {"summary": ...}}` and this model returns that inner
`parallel_parts` dict. `llm` is the chat-model collaborator. -/
def branch_summary (llm : String → String) (s : GState) : List (String × String) :=
  [("summary",
    llm ("Summarize key points concisely:\n" ++
         String.intercalate "\n" (s.retrieved_docs.take 8)))]

/-- `branch_citations(state)`: number the first 8 snippets and ask for bullet citations;
the delta's `parallel_parts` dict is `{"citations": ...}`. -/
def branch_citations (llm : String → String) (s : GState) : List (String × String) :=
  let numbered := String.intercalate "\n"
    ((s.retrieved_docs.take 8).mapIdx (fun i d => toString (i + 1) ++ ". " ++ d))
  [("citations",
    llm ("Produce bullet citations (no fabrication). If unknown source, label Generic.\n\n"
         ++ numbered))]

/-! ## Input validation (`src/agent/multi/graph_multi.py`, `_validate_input`) -/

/-- Python's `$` anchor (no MULTILINE): succeeds at the end of the string, or just
before a final newline character. `pos` counts characters already consumed from the
start. -/
def pyDollar (cs : List Char) (pos : Nat) : Bool :=
  pos == cs.length || (pos + 1 == cs.length && cs.getLast? == some '\n')

/-- `SAFE_INPUT_REGEX.match(s)` for `^[\s\S]{1,5000}$`: `[\s\S]` matches every
character, so the regex matches iff some `k ∈ [1, 5000]` consumed characters land the
`$` anchor. -/
def safeMatch (cs : List Char) : Bool :=
  (List.range 5000).any (fun i => pyDollar cs (i + 1))

/-- `_validate_input(user_input)`: raise `ValueError("Invalid input.")` when the string
is empty (`not user_input`) or the safety regex does not match; otherwise return the
input unchanged. `run_multi` and `run_multi_stream` both call this before doing anything
else with the input. -/
def validate_input (s : String) : Except String String :=
  if s.data.isEmpty || !safeMatch s.data then Except.error "Invalid input."
  else Except.ok s

/-! ## Shell endpoint (`src/tool_server.py`, `shell_cmd`, lines 194-222) -/

/-- Python `str.split()` with no separator: split on runs of whitespace, producing no
empty tokens. Implemented as a single left-to-right pass with an accumulator holding the
current token reversed. -/
def pySplitAux : List Char → List Char → List (List Char)
  | [], acc => if acc.isEmpty then [] else [acc.reverse]
  | c :: rest, acc =>
    if c.isWhitespace then
      if acc.isEmpty then pySplitAux rest [] else acc.reverse :: pySplitAux rest []
    else pySplitAux rest (c :: acc)

/-- Python `str.split()` with no separator. -/
def pySplitChars (cs : List Char) : List (List Char) := pySplitAux cs []

/-- Outcome of the `/shell` endpoint: either an error dict returned without running
anything, or `subprocess.run(full, shell=True)` on the full original command string. -/
inductive ShellResult where
  | errorMsg (msg : String)
  | executed (full : String)
deriving DecidableEq, Repr

/-- The command allow-list `{"ls", "pwd", "df", "echo"}`. -/
def shellAllowed : List String := ["ls", "pwd", "df", "echo"]

/-- `shell_cmd(req)`: tokenize `req.command.strip().split()`; an empty token list is the
"empty command" error, a first token outside the allow-list is the "not allowed" error
(nothing executed), and otherwise the entire original command is handed to the OS
shell. -/
def shell_cmd (command : String) : ShellResult :=
  match pySplitChars (pyStripChars command.data) with
  | [] => ShellResult.errorMsg "Error: empty command"
  | tok :: _ =>
    if String.mk tok ∈ shellAllowed then ShellResult.executed command
    else ShellResult.errorMsg ("Error: command \x27" ++ String.mk tok ++ "\x27 not allowed")

/-! ## C4 / C5: checkpoint store contracts -/

theorem rollback_id_not_found {σ : Type} (records : List (Record σ)) (cid : String)
    (h : cid ∉ records.map Record.id) : rollback records cid = (none, records) := by
  induction records with
  | nil => rfl
  | cons r rs ih =>
    simp only [List.map_cons, List.mem_cons] at h
    push_neg at h
    have hne : ¬(r.id = cid) := fun he => h.1 he.symm
    simp only [rollback, if_neg hne]
    rw [ih h.2]

theorem rollback_id_found {σ : Type} (pre : List (Record σ)) (r : Record σ)
    (post : List (Record σ)) (cid : String) (hr : r.id = cid)
    (hpre : cid ∉ pre.map Record.id) :
    rollback (pre ++ r :: post) cid = (some r.state, pre ++ [r]) := by
  induction pre with
  | nil => simp [rollback, hr]
  | cons p ps ih =>
    simp only [List.map_cons, List.mem_cons] at hpre
    push_neg at hpre
    have hne : ¬(p.id = cid) := fun he => hpre.1 he.symm
    simp only [List.cons_append, rollback, if_neg hne, List.append_eq]
    rw [ih hpre.2]

/-- C4: `rollback(id)` on an id absent from the log returns `None` and leaves the record
sequence returned by `load_all()` unchanged; on a present id it returns exactly the
state snapshot stored at the first record carrying that id, and the log afterwards is
the prefix of the old sequence ending at that record (that record is the new tail, all
later records discarded). -/
theorem C4_rollback_contract {σ : Type} (records : List (Record σ)) (cid : String) :
    (cid ∉ (load_all records).map Record.id →
        rollback records cid = (none, load_all records)) ∧
    (∀ pre r post, load_all records = pre ++ r :: post → r.id = cid →
        cid ∉ pre.map Record.id →
        rollback records cid = (some r.state, pre ++ [r])) := by
  constructor
  · exact fun h => rollback_id_not_found records cid h
  · intro pre r post hsplit hr hpre
    rw [show records = pre ++ r :: post from hsplit]
    exact rollback_id_found pre r post cid hr hpre

def demoRecords : List (Record Nat) :=
  [{ id := "a", ts := 1, node := "planner", state := 10 },
   { id := "b", ts := 2, node := "governance", state := 20 },
   { id := "c", ts := 3, node := "executor", state := 30 }]

/-- Witness for C4: on the three-record demo log, an unknown id leaves the log intact
and a rollback to the middle record truncates after it. -/
theorem C4_rollback_contract_witness :
    rollback demoRecords "zz" = (none, load_all demoRecords) ∧
    rollback demoRecords "b" =
      (some 20,
       [{ id := "a", ts := 1, node := "planner", state := 10 },
        { id := "b", ts := 2, node := "governance", state := 20 }]) :=
  ⟨(C4_rollback_contract demoRecords "zz").1 (by decide),
   (C4_rollback_contract demoRecords "b").2
     [{ id := "a", ts := 1, node := "planner", state := 10 }]
     { id := "b", ts := 2, node := "governance", state := 20 }
     [{ id := "c", ts := 3, node := "executor", state := 30 }]
     rfl rfl (by decide)⟩

/-- C5: for every integer index `i` and every checkpoint log, `time_travel(i)` equals
`load_all()` read at `clamp(i, 0, n-1)` — out-of-range and negative indices are clamped,
never failing — and the result is absent (`None`) exactly when the log is empty. -/
theorem C5_time_travel_clamps {σ : Type} (records : List (Record σ)) (index : Int) :
    time_travel records index =
      ((load_all records).get?
          (max 0 (min index ((records.length : Int) - 1))).toNat).map Record.state ∧
    (time_travel records index).isSome = !records.isEmpty := by
  constructor
  · cases records with
    | nil => simp [time_travel, load_all]
    | cons r rs => rfl
  · cases records with
    | nil => simp [time_travel]
    | cons r rs =>
      simp only [time_travel, List.isEmpty_cons, Bool.not_false]
      have hj : (max 0 (min index (((r :: rs).length : Int) - 1))).toNat <
          (r :: rs).length := by
        have h1 : min index (((r :: rs).length : Int) - 1) ≤
            ((r :: rs).length : Int) - 1 := min_le_right _ _
        have h2 : max 0 (min index (((r :: rs).length : Int) - 1)) ≤
            ((r :: rs).length : Int) - 1 := by
          apply max_le _ h1
          simp only [List.length_cons]
          omega
        have h0 : (0:Int) ≤ max 0 (min index (((r :: rs).length : Int) - 1)) :=
          le_max_left _ _
        omega
      rw [List.get?_eq_get hj]
      simp

/-! ## C9: input validation -/

theorem safeMatch_iff (cs : List Char) :
    safeMatch cs = true ↔
      (1 ≤ cs.length ∧ cs.length ≤ 5000) ∨
      (cs.length = 5001 ∧ cs.getLast? = some '\n') := by
  simp only [safeMatch, List.any_eq_true, List.mem_range, pyDollar, Bool.or_eq_true,
    Bool.and_eq_true, beq_iff_eq]
  constructor
  · rintro ⟨i, hi, h | ⟨h1, h2⟩⟩
    · left; omega
    · by_cases hle : cs.length ≤ 5000
      · left; omega
      · right; exact ⟨by omega, h2⟩
  · rintro (⟨h1, h2⟩ | ⟨h1, h2⟩)
    · exact ⟨cs.length - 1, by omega, Or.inl (by omega)⟩
    · exact ⟨4999, by omega, Or.inr ⟨by omega, h2⟩⟩

def c9_input : String := String.mk (List.replicate 5000 'a' ++ ['\n'])

/-- C9 counterexample: the claim says validation rejects every input longer than 5000
characters, but the 5001-character string of 5000 `a`s followed by a newline passes
`_validate_input` (Python's `$` matches before a trailing newline). -/
theorem C9_counterexample_5001_newline :
    5000 < c9_input.data.length ∧ validate_input c9_input = Except.ok c9_input := by
  have hdata : c9_input.data = List.replicate 5000 'a' ++ ['\n'] := rfl
  have hlen : c9_input.data.length = 5001 := by
    rw [hdata, List.length_append, List.length_replicate]
    rfl
  have hlast : c9_input.data.getLast? = some '\n' := by
    rw [hdata]; exact List.getLast?_concat _
  refine ⟨by omega, ?_⟩
  have hm : safeMatch c9_input.data = true :=
    (safeMatch_iff _).mpr (Or.inr ⟨hlen, hlast⟩)
  have hne : c9_input.data.isEmpty = false := rfl
  simp [validate_input, hm, hne]

/-- C9 (amended): `_validate_input` (hence `run_multi` / `run_multi_stream`) raises
`ValueError("Invalid input.")` exactly when the input is empty or longer than 5000
characters — except that a 5001-character input whose final character is a newline is
accepted, because the regex `$` anchor matches before a trailing newline; every accepted
input is returned unchanged. -/
theorem C9_validate_input_amended (s : String) :
    validate_input s =
      if s.data.length = 0 ∨
          (5000 < s.data.length ∧
            ¬(s.data.length = 5001 ∧ s.data.getLast? = some '\n')) then
        Except.error "Invalid input."
      else Except.ok s := by
  unfold validate_input
  by_cases hc : s.data.length = 0 ∨
      (5000 < s.data.length ∧ ¬(s.data.length = 5001 ∧ s.data.getLast? = some '\n'))
  · rw [if_pos hc]
    have hcond : s.data.isEmpty = true ∨ safeMatch s.data = false := by
      rcases hc with h0 | ⟨h1, h2⟩
      · left
        have : s.data = [] := List.eq_nil_of_length_eq_zero h0
        simp [this]
      · right
        rw [← Bool.not_eq_true]
        intro hm
        rcases (safeMatch_iff _).mp hm with ⟨ha, hb⟩ | hx
        · omega
        · exact h2 hx
    rcases hcond with h | h <;> simp [h]
  · rw [if_neg hc]
    push_neg at hc
    have hm : safeMatch s.data = true := by
      rcases Nat.lt_or_ge 5000 s.data.length with hgt | hle
      · exact (safeMatch_iff _).mpr (Or.inr (hc.2 hgt))
      · exact (safeMatch_iff _).mpr (Or.inl ⟨by omega, hle⟩)
    have hne : s.data.isEmpty = false := by
      rcases hd : s.data with _ | ⟨c, cs⟩
      · rw [hd] at hc; simp at hc
      · rfl
    simp [hm, hne]

/-! ## C10: shell endpoint allow-listing -/

theorem pySplitAux_eq_nil_iff (cs : List Char) (acc : List Char) :
    pySplitAux cs acc = [] ↔ (∀ c ∈ cs, c.isWhitespace) ∧ acc = [] := by
  induction cs generalizing acc with
  | nil =>
    by_cases h : acc = []
    · simp [pySplitAux, h]
    · have hne : acc.isEmpty = false := by
        rcases acc with _ | ⟨c, cs⟩
        · exact absurd rfl h
        · rfl
      simp [pySplitAux, hne, h]
  | cons c rest ih =>
    by_cases hw : c.isWhitespace
    · by_cases ha : acc = []
      · subst ha
        simp [pySplitAux, hw, ih, List.forall_mem_cons]
      · have hne : acc.isEmpty = false := by
          rcases acc with _ | ⟨a, as⟩
          · exact absurd rfl ha
          · rfl
        simp [pySplitAux, hw, hne, ha, List.forall_mem_cons]
    · simp [pySplitAux, hw, ih, List.forall_mem_cons]

theorem all_ws_of_dropWhile_all_ws (l : List Char)
    (h : ∀ c ∈ l.dropWhile Char.isWhitespace, c.isWhitespace) :
    ∀ c ∈ l, c.isWhitespace := by
  intro c hc
  rw [← List.takeWhile_append_dropWhile (p := Char.isWhitespace) (l := l)] at hc
  rcases List.mem_append.mp hc with h1 | h2
  · exact List.mem_takeWhile_imp h1
  · exact h c h2

theorem pyStrip_all_ws_iff (cs : List Char) :
    (∀ c ∈ pyStripChars cs, c.isWhitespace) ↔ ∀ c ∈ cs, c.isWhitespace := by
  constructor
  · intro h
    apply all_ws_of_dropWhile_all_ws
    intro c hc
    have hrev : ∀ c ∈ (cs.dropWhile Char.isWhitespace).reverse, c.isWhitespace := by
      apply all_ws_of_dropWhile_all_ws
      intro d hd
      exact h d (by simpa [pyStripChars] using List.mem_reverse.mpr hd)
    exact hrev c (List.mem_reverse.mpr hc)
  · intro h c hc
    apply h
    have h1 : c ∈ (cs.dropWhile Char.isWhitespace).reverse.dropWhile Char.isWhitespace := by
      simpa [pyStripChars] using hc
    have h2 : c ∈ (cs.dropWhile Char.isWhitespace).reverse :=
      (List.dropWhile_sublist _).subset h1
    exact (List.dropWhile_sublist _).subset (List.mem_reverse.mp h2)

theorem pySplit_strip_eq_nil_iff (cs : List Char) :
    pySplitChars (pyStripChars cs) = [] ↔ ∀ c ∈ cs, c.isWhitespace := by
  rw [pySplitChars, pySplitAux_eq_nil_iff]
  simp [pyStrip_all_ws_iff]

/-- C10: the `/shell` endpoint tokenizes `command.strip().split()` and decides from the
first whitespace-separated token only — an empty or all-whitespace command yields the
"empty command" error; a first token outside `{ls, pwd, df, echo}` yields the
"not allowed" error with nothing executed; a first token in the set causes the entire
original command string to be handed to the OS shell, regardless of what follows. -/
theorem C10_shell_allowlist (command : String) :
    (pySplitChars (pyStripChars command.data) = [] ↔
        ∀ c ∈ command.data, c.isWhitespace) ∧
    (pySplitChars (pyStripChars command.data) = [] →
        shell_cmd command = ShellResult.errorMsg "Error: empty command") ∧
    (∀ tok rest, pySplitChars (pyStripChars command.data) = tok :: rest →
        (String.mk tok ∈ shellAllowed →
            shell_cmd command = ShellResult.executed command) ∧
        (String.mk tok ∉ shellAllowed →
            shell_cmd command = ShellResult.errorMsg
              ("Error: command \x27" ++ String.mk tok ++ "\x27 not allowed"))) := by
  refine ⟨pySplit_strip_eq_nil_iff _, ?_, ?_⟩
  · intro h
    simp [shell_cmd, h]
  · intro tok rest h
    constructor
    · intro hmem
      simp [shell_cmd, h, hmem]
    · intro hmem
      simp [shell_cmd, h, hmem]

/-- Witness for C10: a permitted first token ships the whole command line to the shell
(including the chained disallowed part), a forbidden first token is rejected unrun, and
a blank command is the empty-command error. -/
theorem C10_shell_allowlist_witness :
    shell_cmd "ls x; curl q" = ShellResult.executed "ls x; curl q" ∧
    shell_cmd "curl q" = ShellResult.errorMsg "Error: command \x27curl\x27 not allowed" ∧
    shell_cmd "   " = ShellResult.errorMsg "Error: empty command" :=
  ⟨((C10_shell_allowlist "ls x; curl q").2.2 ['l', 's']
      [['x', ';'], ['c', 'u', 'r', 'l'], ['q']] (by decide)).1 (by decide),
   ((C10_shell_allowlist "curl q").2.2 ['c', 'u', 'r', 'l'] [['q']] (by decide)).2
      (by decide),
   (C10_shell_allowlist "   ").2.1 (by decide)⟩

/-! ## C2: unknown fields fail the merge -/

theorem specMerge_undeclared (k : String) (hk : k ∉ multiAgentStateFields)
    (base : List (String × PyVal)) (v : PyVal) :
    specMerge base [(k, v)] = Except.error (MergeError.schemaError k) := by
  simp [specMerge, List.foldlM, hk]

/-- C2: for every key returned by the multi-agent planner and reviewer nodes, either the
key is declared in `MultiAgentState` or merging a delta containing it fails with
`SchemaError` — an unknown field is never silently dropped. (In fact `tasks` and
`critique` are undeclared, so the modelled merge rejects those deltas.) -/
theorem C2_merge_rejects_undeclared (k : String)
    (hk : k ∈ plannerReturnKeys ++ reviewerReturnKeys)
    (base : List (String × PyVal)) (v : PyVal) :
    k ∈ multiAgentStateFields ∨
      specMerge base [(k, v)] = Except.error (MergeError.schemaError k) := by
  simp only [plannerReturnKeys, reviewerReturnKeys, List.cons_append, List.nil_append,
    List.mem_cons, List.not_mem_nil, or_false] at hk
  rcases hk with h | h | h | h | h | h | h <;> subst h
  · exact Or.inl (by decide)
  · exact Or.inr (specMerge_undeclared _ (by decide) base v)
  · exact Or.inl (by decide)
  · exact Or.inl (by decide)
  · exact Or.inl (by decide)
  · exact Or.inr (specMerge_undeclared _ (by decide) base v)
  · exact Or.inl (by decide)

/-- Witness for C2 at the planner's `tasks` key: it is not declared in the schema, and
the modelled merge raises `SchemaError` on it instead of dropping it. -/
theorem C2_merge_rejects_undeclared_witness :
    ("tasks" ∈ plannerReturnKeys ++ reviewerReturnKeys) ∧
    ("tasks" ∈ multiAgentStateFields ∨
      specMerge [] [("tasks", PyVal.null)] =
        Except.error (MergeError.schemaError "tasks")) :=
  ⟨by decide, C2_merge_rejects_undeclared "tasks" (by decide) [] PyVal.null⟩

/-! ## C8: disjoint fan-out branch outputs merge order-independently -/

theorem pySet_keys {V : Type} (d : List (String × V)) (k : String) (v : V) :
    (pySet d k v).map Prod.fst =
      if k ∈ d.map Prod.fst then d.map Prod.fst else d.map Prod.fst ++ [k] := by
  induction d with
  | nil => simp [pySet]
  | cons hd tl ih =>
    obtain ⟨k1, v1⟩ := hd
    by_cases h1 : k1 = k
    · subst h1
      simp [pySet]
    · have hne : ¬(k = k1) := fun h => h1 h.symm
      simp only [pySet, if_neg h1, List.map_cons, ih, List.mem_cons, hne, false_or]
      by_cases h2 : k ∈ tl.map Prod.fst <;> simp [h2, hne]

theorem pySet_keys_nodup {V : Type} (d : List (String × V)) (k : String) (v : V)
    (hd : (d.map Prod.fst).Nodup) : ((pySet d k v).map Prod.fst).Nodup := by
  rw [pySet_keys]
  by_cases h : k ∈ d.map Prod.fst
  · simpa [h]
  · simp only [h, if_false]
    simp [List.nodup_append, hd, h]

theorem pyDictUpdate_keys_nodup {V : Type} (e d : List (String × V))
    (hd : (d.map Prod.fst).Nodup) : ((pyDictUpdate d e).map Prod.fst).Nodup := by
  induction e generalizing d with
  | nil => exact hd
  | cons hd1 tl ih =>
    obtain ⟨k1, v1⟩ := hd1
    exact ih _ (pySet_keys_nodup d k1 v1 hd)

theorem mergeDict_keys_nodup {V : Type} (a b : List (String × V)) :
    ((mergeDict a b).map Prod.fst).Nodup :=
  pyDictUpdate_keys_nodup b _ (pyDictUpdate_keys_nodup a [] (by simp))

theorem mem_of_pyLookup_some {V : Type} {d : List (String × V)} {k : String} {v : V}
    (h : pyLookup d k = some v) : k ∈ d.map Prod.fst := by
  by_contra hmem
  rw [pyLookup_eq_none_of_not_mem d k hmem] at h
  cases h

theorem pyLookup_mergeDict {V : Type} (a b : List (String × V))
    (ha : (a.map Prod.fst).Nodup) (hb : (b.map Prod.fst).Nodup) (k : String) :
    pyLookup (mergeDict a b) k =
      match pyLookup b k with
      | some v => some v
      | none =>
        match pyLookup a k with
        | some v => some v
        | none => none := by
  rw [mergeDict, pyLookup_pyDictUpdate b _ k hb]
  cases hy : pyLookup b k
  · rw [pyLookup_pyDictUpdate a ([] : List (String × V)) k ha]
    cases pyLookup a k <;> simp [pyLookup]
  · simp

/-- C8: merging two partial dicts with disjoint key sets via `_merge_dict` yields the
same dict (Python `==`, i.e. lookup-wise equality) in either order, and both operands'
contributions are present in the result; in particular the fan-out branch outputs —
`branch_summary` writes only the `summary` key and `branch_citations` only the
`citations` key of `parallel_parts` — can be folded into any base dict in either
completion order with identical final state. -/
theorem C8_disjoint_merge_order_independent {V : Type} (a b : List (String × V))
    (ha : (a.map Prod.fst).Nodup) (hb : (b.map Prod.fst).Nodup)
    (hdisj : ∀ k, ¬(k ∈ a.map Prod.fst ∧ k ∈ b.map Prod.fst)) :
    (∀ k, pyLookup (mergeDict a b) k = pyLookup (mergeDict b a) k) ∧
    (∀ k v, pyLookup a k = some v → pyLookup (mergeDict a b) k = some v) ∧
    (∀ k v, pyLookup b k = some v → pyLookup (mergeDict a b) k = some v) ∧
    (∀ (llm1 llm2 : String → String) (s : GState) (base : List (String × String))
        (k : String),
      pyLookup (mergeDict (mergeDict base (branch_summary llm1 s))
          (branch_citations llm2 s)) k =
        pyLookup (mergeDict (mergeDict base (branch_citations llm2 s))
          (branch_summary llm1 s)) k) := by
  refine ⟨?_, ?_, ?_, ?_⟩
  · intro k
    rw [pyLookup_mergeDict a b ha hb k, pyLookup_mergeDict b a hb ha k]
    cases hx : pyLookup a k with
    | none => cases hy : pyLookup b k <;> simp
    | some v =>
      have hyn : pyLookup b k = none :=
        pyLookup_eq_none_of_not_mem b k (fun hm => hdisj k ⟨mem_of_pyLookup_some hx, hm⟩)
      simp [hyn]
  · intro k v hv
    have hyn : pyLookup b k = none :=
      pyLookup_eq_none_of_not_mem b k (fun hm => hdisj k ⟨mem_of_pyLookup_some hv, hm⟩)
    rw [pyLookup_mergeDict a b ha hb k, hyn, hv]
  · intro k v hv
    rw [pyLookup_mergeDict a b ha hb k, hv]
  · intro llm1 llm2 s base k
    have hn1 : ((branch_summary llm1 s).map Prod.fst).Nodup := by simp [branch_summary]
    have hn2 : ((branch_citations llm2 s).map Prod.fst).Nodup := by
      simp [branch_citations]
    rw [pyLookup_mergeDict _ _ (mergeDict_keys_nodup base (branch_summary llm1 s)) hn2 k,
        pyLookup_mergeDict _ _ (mergeDict_keys_nodup base (branch_citations llm2 s)) hn1 k,
        show mergeDict base (branch_summary llm1 s) =
            pyDictUpdate (pyDictUpdate [] base) (branch_summary llm1 s) from rfl,
        pyLookup_pyDictUpdate (branch_summary llm1 s) (pyDictUpdate [] base) k hn1,
        show mergeDict base (branch_citations llm2 s) =
            pyDictUpdate (pyDictUpdate [] base) (branch_citations llm2 s) from rfl,
        pyLookup_pyDictUpdate (branch_citations llm2 s) (pyDictUpdate [] base) k hn2]
    simp only [branch_summary, branch_citations, pyLookup]
    by_cases hs : ("summary" : String) = k
    · have hc : ¬(("citations" : String) = k) := by
        intro hc
        rw [← hs] at hc
        exact absurd hc (by decide)
      simp [hs, hc]
    · by_cases hc : ("citations" : String) = k <;> simp [hs, hc]

/-- Witness for C8 on the concrete disjoint dicts `x: 1` and `y: 2`. -/
theorem C8_disjoint_merge_order_independent_witness :
    pyLookup (mergeDict [("x", 1)] [("y", 2)]) "x" =
      pyLookup (mergeDict [("y", 2)] [("x", 1)]) "x" :=
  (C8_disjoint_merge_order_independent [("x", 1)] [("y", 2)] (by decide) (by decide)
    (by rintro k ⟨hk1, hk2⟩; simp_all)).1 "x"

/-! ## C1 / C3 / C6 / C7: gate chain, halt propagation, node purity -/

def envNoRate : GovEnv := { rateLimitPerMin := 0 }

/-- C1 (code evidence): with the rate ceiling at 0, `governance_node` halts the run with
`rate_limited`; feeding the resulting halted state to the downstream nodes,
`researcher_node` still performs its retrieval HTTP request and `executor_node` still
invokes the chat model (effect counters 1, not 0) — neither node nor the engine consults
the `halt` marker, so the claimed skip/pass-through of non-terminal nodes after a halt
does not occur. -/
theorem C1_halted_run_still_effectful :
    (let s1 := (governance_node envNoRate (fun s => s) [] 0
        { user_input := some "hi", route := some "rag" }).1
     s1.halt = some "rate_limited" ∧
     (researcher_node (fun _ => "doc") s1).2 = 1 ∧
     (executor_node (fun _ => "draft") s1).2 = 1) := by
  decide

def envHitlMissing : GovEnv := { hitlFileContent := none }

def envHitlYes : GovEnv := { hitlFileContent := some "YES" }

def envHitlNo : GovEnv := { hitlFileContent := some "no" }

/-- C3 (code evidence): with HITL enabled and the approval file absent,
`_hitl_approval` returns `True`, so the governance gate marks the state approved
(`hitl_approved`) and continues with no halt — not the `hitl_pending` halt with the
'Awaiting human approval.' message the claim requires for an absent signal. A present
approving file also approves and continues (that half of the claim matches the code);
the pending halt occurs only when a file with non-approving content exists. -/
theorem C3_hitl_absent_signal_allows :
    hitl_approval none = true ∧
    (let g1 := (governance_node envHitlMissing (fun s => s) [] 0
        { user_input := some "hi" }).1
     g1.halt = none ∧ g1.hitl_approved = some true ∧ g1.reviewed_answer = none) ∧
    (let g2 := (governance_node envHitlYes (fun s => s) [] 0
        { user_input := some "hi" }).1
     g2.halt = none ∧ g2.hitl_approved = some true) ∧
    (let g3 := (governance_node envHitlNo (fun s => s) [] 0
        { user_input := some "hi" }).1
     g3.halt = some "hitl_pending" ∧
     g3.reviewed_answer = some "Awaiting human approval.") := by
  decide

/-- C7 (code evidence): `governance_node` and `audit_node` assign into the very state
dict they receive (`state["original_user_input"] = ...`, `state["audit"] = ...`) and
return that same object, so the dict after the call differs from the dict passed in —
refuting the claim that every node leaves its input mapping unmodified. -/
theorem C7_nodes_mutate_their_input :
    (let s0 : MState := { user_input := some "hi" }
     let g := (governance_node {} (fun s => s) [] 0 s0).1
     g ≠ s0 ∧ s0.original_user_input = none ∧ g.original_user_input = some "hi") ∧
    (let a0 : MState := { user_input := some "hi", answer := some "fine" }
     let a1 := audit_node (fun _ => "digest") a0
     a1 ≠ a0 ∧ a0.audit = none ∧ a1.audit = some { issues := [], valid := true }) := by
  decide

def envC6 : GovEnv := { rateLimitPerMin := 1, enableHitl := false }

/-- C6: the rate limiter evicts timestamps older than 60 seconds before each check,
rejects exactly when the retained count has reached the ceiling, and records only
accepted requests in the window; consequently, with a ceiling of 1 per minute, of two
governance runs within the same minute the first proceeds with no halt (its timestamp
recorded) and the second halts with reason `rate_limited` (recording nothing). -/
theorem C6_second_run_rate_limited (t1 t2 : Nat) (hwin : t2 - t1 ≤ 60)
    (redact : String → String) :
    (∀ (limit : Nat) (w : List Nat) (now : Nat),
        ((rateLimit limit w now).1.1 = false ↔
          limit ≤ (w.dropWhile (fun t => decide (60 < now - t))).length) ∧
        ((rateLimit limit w now).1.1 = true →
          (rateLimit limit w now).2 =
            w.dropWhile (fun t => decide (60 < now - t)) ++ [now]) ∧
        ((rateLimit limit w now).1.1 = false →
          (rateLimit limit w now).2 = w.dropWhile (fun t => decide (60 < now - t)))) ∧
    ((governance_node envC6 redact [] t1 { user_input := some "hi" }).1.halt = none) ∧
    ((governance_node envC6 redact [] t1 { user_input := some "hi" }).2 = [t1]) ∧
    ((governance_node envC6 redact
        (governance_node envC6 redact [] t1 { user_input := some "hi" }).2 t2
        { user_input := some "hi" }).1.halt = some "rate_limited") ∧
    ((governance_node envC6 redact
        (governance_node envC6 redact [] t1 { user_input := some "hi" }).2 t2
        { user_input := some "hi" }).2 = [t1]) := by
  have hgov : ∀ (w : List Nat) (now : Nat),
      (governance_node envC6 redact w now { user_input := some "hi" }).1.halt =
        (if (rateLimit 1 w now).1.1 then none else some "rate_limited") ∧
      (governance_node envC6 redact w now { user_input := some "hi" }).2 =
        (rateLimit 1 w now).2 := by
    intro w now
    have hm : moderate "hi" = false := by decide
    cases hok : (rateLimit 1 w now).1.1 <;>
      by_cases hred : redact "hi" ≠ "hi" <;>
        simp [governance_node, envC6, hm, hred, hok]
  have hrl1 : rateLimit 1 [] t1 = ((true, 1), [t1]) := by simp [rateLimit]
  have hp : (decide (60 < t2 - t1)) = false := by
    simp only [decide_eq_false_iff_not]
    omega
  have hrl2 : rateLimit 1 [t1] t2 = ((false, 1), [t1]) := by
    simp [rateLimit, List.dropWhile_cons, hp]
  refine ⟨?_, ?_, ?_, ?_, ?_⟩
  · intro limit w now
    unfold rateLimit
    by_cases h : limit ≤ (w.dropWhile (fun t => decide (60 < now - t))).length <;>
      simp [h]
  · rw [(hgov [] t1).1, hrl1]
    simp
  · rw [(hgov [] t1).2, hrl1]
  · rw [(hgov [] t1).2, hrl1]
    show (governance_node envC6 redact [t1] t2 { user_input := some "hi" }).1.halt = _
    rw [(hgov [t1] t2).1, hrl2]
    simp
  · rw [(hgov [] t1).2, hrl1]
    show (governance_node envC6 redact [t1] t2 { user_input := some "hi" }).2 = _
    rw [(hgov [t1] t2).2, hrl2]

/-- Witness for C6 at `t1 = 0`, `t2 = 30`, identity redaction: the second run inside
the same minute halts with `rate_limited`. -/
theorem C6_second_run_rate_limited_witness :
    (governance_node envC6 (fun s => s)
        (governance_node envC6 (fun s => s) [] 0 { user_input := some "hi" }).2 30
        { user_input := some "hi" }).1.halt = some "rate_limited" :=
  (C6_second_run_rate_limited 0 30 (by decide) (fun s => s)).2.2.2.1
